import Mathlib

/-!
Shallow embedding of `src/api/app.py` (a FastAPI Telegram webhook that parses
free-text health-tracking messages and upserts them into a per-day table).

The embedding keeps the source's structure:
* `COLUMN_MAPPING` (app.py lines 24-35) is the ordered alias vocabulary.
* `parse` embeds the parsing loop of `handle_message` (lines 43-65):
  split on commas, strip, lowercase, split on whitespace, last token through
  `float(...)`, remaining tokens joined with single spaces and resolved by a
  first-match startswith scan over `COLUMN_MAPPING` in declaration order,
  results accumulated into a Python dict (insertion-ordered, overwrite keeps
  the original position).
* `reconcile` embeds the dynamically built
  `INSERT ... ON CONFLICT(day) DO UPDATE SET col = EXCLUDED.col` upsert
  (lines 77-90); note the `DO UPDATE SET` clause covers only the update
  columns, not `timestamp`.
* `runPipeline` embeds `handle_message` together with the exception handling
  of `telegram_webhook` (lines 105-127): the external database and Telegram
  calls are represented by boolean outcome oracles, and an exception raised
  by either one propagates to the webhook's catch-all `except`, which logs
  and returns `{"status": "error"}` with HTTP 500.

Python `float` values are modelled by `PyFloat`: an exact rational for finite
values plus `inf`, `neginf` and `nan`.  No arithmetic is ever performed on
parsed values (they are only stored and echoed), so modelling finite floats
as exact rationals is faithful for every property below.  Python string
helpers (`str.split`, `str.strip`, `str.lower`, `str.startswith`,
`" ".join`) are embedded as structurally recursive functions on `List Char`;
`str.lower` is modelled on the repertoire the vocabulary can ever match
(ASCII plus the letter eñe).
-/

/-- Model of a Python `float` value: exact rational for finite values,
plus the special values produced by `float("inf")`, `float("-inf")`,
`float("nan")`. -/
inductive PyFloat where
  | finite (q : ℚ)
  | inf
  | neginf
  | nan
deriving DecidableEq

/-- Negation of a `PyFloat`, used for a leading minus sign.  Python's
`float("-nan")` is still a NaN. -/
def negFloat : PyFloat → PyFloat
  | .finite q => .finite (Rat.neg q)
  | .inf => .neginf
  | .neginf => .inf
  | .nan => .nan

/-- Numeric value of a list of decimal digit characters. -/
def digitsVal (l : List Char) : Nat :=
  l.foldl (fun a c => a * 10 + (c.toNat - 48)) 0

/-- Powers of ten, by plain recursion (keeps every evaluation
kernel-reducible). -/
def pow10 : Nat → Nat
  | 0 => 1
  | n + 1 => 10 * pow10 n

/-- True when `l` is a nonempty run of decimal digits. -/
def allDigits (l : List Char) : Bool :=
  !l.isEmpty && l.all (fun c => c.isDigit)

/-- Split a character list at every occurrence of `sep` (like Python
`str.split(sep)`: empty segments are kept). -/
def splitOnCh (sep : Char) : List Char → List (List Char)
  | [] => [[]]
  | c :: cs =>
    let r := splitOnCh sep cs
    if c = sep then [] :: r
    else
      match r with
      | [] => [[c]]
      | h :: t => (c :: h) :: t

/-- Mantissa of a Python float literal: digits with an optional decimal
point (`"70"`, `"70.5"`, `"1."`, `".5"`; `"."` and `""` are rejected,
matching `float`). -/
def parseMantissa (l : List Char) : Option ℚ :=
  match splitOnCh '.' l with
  | [a] => if allDigits a then some (mkRat (Int.ofNat (digitsVal a)) 1) else none
  | [a, b] =>
    if a.isEmpty && b.isEmpty then none
    else if a.all (fun c => c.isDigit) && b.all (fun c => c.isDigit) then
      some (mkRat (Int.ofNat (digitsVal a * pow10 b.length + digitsVal b))
        (pow10 b.length))
    else none
  | _ => none

/-- Exponent part of a Python float literal: optional sign and digits. -/
def parseExp (l : List Char) : Option Int :=
  match l with
  | '+' :: rest => if allDigits rest then some (Int.ofNat (digitsVal rest)) else none
  | '-' :: rest => if allDigits rest then some (-Int.ofNat (digitsVal rest)) else none
  | rest => if allDigits rest then some (Int.ofNat (digitsVal rest)) else none

/-- Multiply a rational by the given power of ten (the effect of a float
literal's exponent part), via core `mkRat` only. -/
def applyExp (q : ℚ) : Int → ℚ
  | .ofNat n => mkRat (q.num * Int.ofNat (pow10 n)) q.den
  | .negSucc n => mkRat q.num (q.den * pow10 (n + 1))

/-- Unsigned body of a Python `float(...)` argument (input is already
lowercase, as the source lowercases each clause before tokenising):
`inf`/`infinity`, `nan`, or mantissa with optional `e`-exponent. -/
def parseUnsigned (l : List Char) : Option PyFloat :=
  if l = "inf".data ∨ l = "infinity".data then some .inf
  else if l = "nan".data then some .nan
  else
    match splitOnCh 'e' l with
    | [m] => (parseMantissa m).map .finite
    | [m, e] =>
      match parseMantissa m, parseExp e with
      | some qm, some qe => some (.finite (applyExp qm qe))
      | _, _ => none
    | _ => none

/-- Model of Python `float(token)` on a whitespace-free lowercase token:
optional sign, then `inf`/`infinity`/`nan` or decimal/scientific notation.
Returns `none` where `float` raises `ValueError` (the `try/except` in
app.py lines 53-56 turns that into skipping the clause). -/
def parseFloatCh (l : List Char) : Option PyFloat :=
  match l with
  | [] => none
  | '+' :: rest => parseUnsigned rest
  | '-' :: rest => (parseUnsigned rest).map negFloat
  | _ => parseUnsigned l

/-- Python whitespace test for the characters `str.split()` and
`str.strip()` act on. -/
def isSpaceCh (c : Char) : Bool :=
  c = ' ' || c = '\t' || c = '\n' || c = '\r' || c = '\x0b' || c = '\x0c'

/-- Python `str.strip()`: drop leading and trailing whitespace. -/
def stripCh (l : List Char) : List Char :=
  ((l.dropWhile isSpaceCh).reverse.dropWhile isSpaceCh).reverse

/-- Split at every whitespace character (empty segments kept); helper for
`wordsCh`. -/
def splitByWS : List Char → List (List Char)
  | [] => [[]]
  | c :: cs =>
    let r := splitByWS cs
    if isSpaceCh c then [] :: r
    else
      match r with
      | [] => [[c]]
      | h :: t => (c :: h) :: t

/-- Python `str.split()` with no argument: split on whitespace runs,
discarding empty segments. -/
def wordsCh (l : List Char) : List (List Char) :=
  (splitByWS l).filter (fun w => w ≠ [])

/-- Python `str.lower()` restricted to the repertoire relevant to the
vocabulary: ASCII letters and the letter eñe (the full Unicode mapping
agrees with this one on every alias in `COLUMN_MAPPING`). -/
def pyLowerChar (c : Char) : Char :=
  if 'A' ≤ c ∧ c ≤ 'Z' then Char.ofNat (c.toNat + 32)
  else if c = 'Ñ' then 'ñ'
  else c

/-- Python `str.lower()` on a character list. -/
def pyLower (l : List Char) : List Char := l.map pyLowerChar

/-- Python `s.startswith(pat)`. -/
def beginsWith : List Char → List Char → Bool
  | _, [] => true
  | [], _ :: _ => false
  | c :: cs, d :: ds => c = d && beginsWith cs ds

/-- Python `" ".join(tokens)`. -/
def joinSpace : List (List Char) → List Char
  | [] => []
  | [w] => w
  | w :: ws => w ++ ' ' :: joinSpace ws

/-- The alias vocabulary `COLUMN_MAPPING` of app.py lines 24-35, in its
declaration order (Python dicts iterate in insertion order). -/
def COLUMN_MAPPING : List (String × String) :=
  [("sueño", "Suenho"),
   ("s", "Suenho"),
   ("sueño prof", "Suenho_profundo"),
   ("sp", "Suenho_profundo"),
   ("peso", "Peso"),
   ("p", "Peso"),
   ("kcal", "KCal"),
   ("km", "KM_Nad"),
   ("cerve", "Cerve"),
   ("copete", "Copete")]

/-- The canonical column identifiers (the distinct values of
`COLUMN_MAPPING`, i.e. the metric columns of the `General_track` table). -/
def canonicalCols : List String :=
  ["Suenho", "Suenho_profundo", "Peso", "KCal", "KM_Nad", "Cerve", "Copete"]

/-- The first-match startswith scan of app.py lines 59-63: the loop over
`COLUMN_MAPPING` breaking at the first key that `field_input` starts
with. -/
def resolveField (fi : List Char) : Option String :=
  (COLUMN_MAPPING.find? (fun kv => beginsWith fi kv.1.data)).map (fun kv => kv.2)

/-- Python dict assignment `updates[column] = value`: overwrite in place if
the key is present (keeping its original position), else append. -/
def dictInsert (m : List (String × PyFloat)) (k : String) (v : PyFloat) :
    List (String × PyFloat) :=
  if m.any (fun p => p.1 = k) then
    m.map (fun p => if p.1 = k then (k, v) else p)
  else m ++ [(k, v)]

/-- One iteration of the clause loop in app.py lines 46-65, on the stripped
clause: skip empty clauses, lowercase and tokenise, require at least two
tokens, parse the last token as a float (skip on failure), resolve the
joined remaining tokens against the vocabulary (skip when unresolved). -/
def parseClause (part : List Char) : Option (String × PyFloat) :=
  if part.isEmpty ∨ (wordsCh (pyLower part)).length < 2 then none
  else
    ((wordsCh (pyLower part)).getLast?).bind fun last =>
      (parseFloatCh last).bind fun v =>
        (resolveField (joinSpace ((wordsCh (pyLower part)).dropLast))).map
          fun c => (c, v)

/-- Fold step accumulating one clause's result into the `updates` dict. -/
def parseStep (m : List (String × PyFloat)) (part : List Char) :
    List (String × PyFloat) :=
  match parseClause part with
  | some (c, v) => dictInsert m c v
  | none => m

/-- The whole parsing phase of `handle_message` (app.py lines 43-65):
split the text on commas, strip each part, and run the clause loop,
producing the insertion-ordered `updates` mapping. -/
def parse (text : String) : List (String × PyFloat) :=
  (((splitOnCh ',' text.data)).map stripCh).foldl parseStep []

example : parse "sueño 7, sp 2, p 70.5" =
    [("Suenho", .finite (mkRat 2 1)), ("Peso", .finite (mkRat 141 2))] := by decide

example : parse "p 70, p 71" = [("Peso", .finite (mkRat 71 1))] := by decide

example : parse "" = [] := by decide

example : parse "hello there" = [] := by decide

example : parse "p abc" = [] := by decide

example : parse "xyz 5, p 70" = [("Peso", .finite (mkRat 70 1))] := by decide

example : parse "salsa 3" = [("Suenho", .finite (mkRat 3 1))] := by decide

example : parse "p inf" = [("Peso", .inf)] := by decide

example : parse "p nan" = [("Peso", .nan)] := by decide

example : parse "p -5" = [("Peso", .finite (mkRat (-5) 1))] := by decide

example : resolveField "sp".data = some "Suenho" := by decide

example : resolveField "sueño prof".data = some "Suenho" := by decide

/-- Multiply a rational by `10 ^ k` (numerator-level, so that the result's
reduced denominator is computable by the kernel). -/
def shift10 (q : ℚ) (k : Nat) : ℚ :=
  mkRat (q.num * Int.ofNat (pow10 k)) q.den

/-- Decimal rendering of `digits / 10 ^ k` (digits already sign-free):
exactly how Python `repr` prints a float whose shortest round-trip form
has `k` fractional digits; integral values get a trailing `.0`. -/
def decRepr (ds k : Nat) : String :=
  let s := Nat.repr ds
  if k = 0 then s ++ ".0"
  else
    let t := String.mk (List.replicate (k + 1 - s.length) '0') ++ s
    String.mk (t.data.take (t.data.length - k)) ++ "." ++
      String.mk (t.data.drop (t.data.length - k))

/-- Render a nonnegative rational the way Python `repr` renders the float
a short decimal literal parses to (the fallback branch is unreachable for
any value `parseFloatCh` produces). -/
def reprRatNN (q : ℚ) : String :=
  match (List.range 31).find? (fun k => (shift10 q k).den == 1) with
  | some k => decRepr (shift10 q k).num.natAbs k
  | none => Nat.repr q.num.natAbs ++ "/" ++ Nat.repr q.den

/-- Python `repr`/f-string rendering of a finite float value. -/
def reprRat (q : ℚ) : String :=
  if q.num < 0 then "-" ++ reprRatNN (Rat.neg q) else reprRatNN q

/-- Python f-string rendering `f"{v}"` of a float value. -/
def pyReprFloat : PyFloat → String
  | .finite q => reprRat q
  | .inf => "inf"
  | .neginf => "-inf"
  | .nan => "nan"

/-- The confirmation string of app.py line 93:
`", ".join(f"{k}={v}" for k, v in updates.items())`. -/
def formatUpdates (m : List (String × PyFloat)) : String :=
  String.intercalate ", " (m.map (fun p => p.1 ++ "=" ++ pyReprFloat p.2))

example : formatUpdates [("Suenho", .finite (mkRat 2 1)), ("Peso", .finite (mkRat 141 2))] =
    "Suenho=2.0, Peso=70.5" := by decide

/-- One row of the `General_track` table: the day key is held by the store,
the row holds the `timestamp` column and one nullable numeric column per
tracked metric (app.py lines 80-88). -/
@[ext]
structure Row where
  timestamp : Nat
  Suenho : Option PyFloat := none
  Suenho_profundo : Option PyFloat := none
  Peso : Option PyFloat := none
  KCal : Option PyFloat := none
  KM_Nad : Option PyFloat := none
  Cerve : Option PyFloat := none
  Copete : Option PyFloat := none
deriving DecidableEq

/-- Read a metric column of a row by its canonical name. -/
def getCol (r : Row) (c : String) : Option PyFloat :=
  if c = "Suenho" then r.Suenho
  else if c = "Suenho_profundo" then r.Suenho_profundo
  else if c = "Peso" then r.Peso
  else if c = "KCal" then r.KCal
  else if c = "KM_Nad" then r.KM_Nad
  else if c = "Cerve" then r.Cerve
  else if c = "Copete" then r.Copete
  else none

/-- Overwrite a metric column of a row by its canonical name (identity for
a name outside the schema, which the parser never produces). -/
def setCol (r : Row) (c : String) (v : PyFloat) : Row :=
  if c = "Suenho" then { r with Suenho := some v }
  else if c = "Suenho_profundo" then { r with Suenho_profundo := some v }
  else if c = "Peso" then { r with Peso := some v }
  else if c = "KCal" then { r with KCal := some v }
  else if c = "KM_Nad" then { r with KM_Nad := some v }
  else if c = "Cerve" then { r with Cerve := some v }
  else if c = "Copete" then { r with Copete := some v }
  else r

/-- Apply every `(column, value)` pair of an update mapping to a row, in
order: the effect of `DO UPDATE SET col = EXCLUDED.col, ...` (and of the
column list of the `INSERT`) on the touched columns. -/
def applyUpdates (r : Row) (U : List (String × PyFloat)) : Row :=
  U.foldl (fun acc p => setCol acc p.1 p.2) r

/-- A freshly inserted row before any metric column is populated. -/
def emptyRow (t : Nat) : Row := { timestamp := t }

/-- The persisted `General_track` table: one `(day, row)` entry per day
(days are abstracted to naturals; the store is the external state the
upsert of app.py lines 77-90 manipulates). -/
abbrev Store := List (Nat × Row)

/-- Look up the row stored for a day. -/
def lookupStore (S : Store) (d : Nat) : Option Row :=
  (S.find? (fun p => p.1 == d)).map (fun p => p.2)

/-- The upsert of app.py lines 80-90:
`INSERT INTO General_track (day, timestamp, <update columns>) VALUES (...)
ON CONFLICT(day) DO UPDATE SET <col = EXCLUDED.col for the update columns>`.
On conflict only the update columns are overwritten — the `DO UPDATE SET`
clause is built from `updates.keys()` alone, so `timestamp` keeps its
stored value; without conflict a fresh row is inserted with `timestamp`
and exactly the supplied columns populated. -/
def reconcile (S : Store) (d t : Nat) (U : List (String × PyFloat)) : Store :=
  match lookupStore S d with
  | some _ => S.map (fun p => if p.1 = d then (p.1, applyUpdates p.2 U) else p)
  | none => S ++ [(d, applyUpdates (emptyRow t) U)]

/-- Last value an update mapping assigns to a column, if any. -/
def lastVal (U : List (String × PyFloat)) (c : String) : Option PyFloat :=
  U.foldl (fun acc p => if p.1 = c then some p.2 else acc) none

/-- Outcome of one `handle_message` run as observed through
`telegram_webhook`: either the in-band JSON results of `handle_message`,
or an exception from the external database / Telegram calls that
propagates to the webhook's catch-all `except` (app.py lines 124-127). -/
inductive PipeResult where
  | noValidFields
  | success (confirmation : String)
  | storageFailure
  | notifyFailure
deriving DecidableEq

/-- A pipeline run's reported result together with the persisted store it
leaves behind. -/
structure PipeOutcome where
  result : PipeResult
  store : Store
deriving DecidableEq

/-- One run of `handle_message` (app.py lines 43-103) under
`telegram_webhook`'s exception handling, with the two external calls
modelled by outcome oracles: `dbOk` is whether the `asyncpg` upsert
succeeds, `notifyOk` whether the Telegram `sendMessage` POST succeeds.
An empty parse short-circuits before any storage access; a storage
failure leaves the store unchanged; a notification failure happens after
the committed upsert (which is not rolled back) and raises out of
`handle_message` into the webhook's catch-all.  `d` and `t` are the
America/Santiago day and timestamp computed at lines 71-73. -/
def runPipeline (S : Store) (d t : Nat) (text : String) (dbOk notifyOk : Bool) :
    PipeOutcome :=
  let updates := parse text
  if updates.isEmpty then ⟨.noValidFields, S⟩
  else if dbOk then
    let S2 := reconcile S d t updates
    if notifyOk then ⟨.success (formatUpdates updates), S2⟩
    else ⟨.notifyFailure, S2⟩
  else ⟨.storageFailure, S⟩

/-- The `status` field of the JSON body the webhook endpoint returns for
each outcome (`"success"` only on the all-good path; both the
no-valid-fields JSON of line 68 and the catch-all of line 127 report
`"error"`). -/
def reportedStatus : PipeResult → String
  | .success _ => "success"
  | _ => "error"

/-- The HTTP status code the webhook endpoint returns for each outcome
(`JSONResponse` defaults to 200; the catch-all of line 127 sets 500). -/
def reportedHttp : PipeResult → Nat
  | .noValidFields => 200
  | .success _ => 200
  | .storageFailure => 500
  | .notifyFailure => 500

/-- The human-readable message of each in-band outcome (`none` for the
exception paths, whose body carries the environment-dependent `str(e)`). -/
def reportedMessage : PipeResult → Option String
  | .noValidFields => some "No valid fields found in message."
  | .success s => some ("Updated today: " ++ s)
  | .storageFailure => none
  | .notifyFailure => none

example : runPipeline [] 0 5 "p 70" true false =
    ⟨.notifyFailure, [(0, { timestamp := 5, Peso := some (.finite (mkRat 70 1)) })]⟩ := by
  decide

example :
    reconcile (reconcile [] 0 5 [("Peso", .finite (mkRat 70 1))]) 0 6
        [("KCal", .finite (mkRat 2000 1))] =
    [(0, { timestamp := 5, Peso := some (.finite (mkRat 70 1)),
           KCal := some (.finite (mkRat 2000 1)) })] := by decide

/-! ### Parser lemmas -/

/-- Whatever the vocabulary scan resolves to is one of the canonical
columns. -/
theorem resolveField_mem_canonical {fi : List Char} {c : String}
    (h : resolveField fi = some c) : c ∈ canonicalCols := by
  unfold resolveField at h
  rw [Option.map_eq_some'] at h
  obtain ⟨kv, hfind, hc⟩ := h
  have hmem := List.mem_of_find?_eq_some hfind
  have hall : ∀ kv ∈ COLUMN_MAPPING, kv.2 ∈ canonicalCols := by decide
  exact hc ▸ hall kv hmem

/-- Inversion of the clause loop body: a recorded clause passed the token
count check, parsed its last token as a float and resolved its field text. -/
theorem parseClause_inv {part : List Char} {c : String} {v : PyFloat}
    (h : parseClause part = some (c, v)) :
    resolveField (joinSpace ((wordsCh (pyLower part)).dropLast)) = some c ∧
    ∃ last, (wordsCh (pyLower part)).getLast? = some last ∧
      parseFloatCh last = some v := by
  unfold parseClause at h
  split at h
  · simp at h
  · rw [Option.bind_eq_some] at h
    obtain ⟨last, hlast, h⟩ := h
    rw [Option.bind_eq_some] at h
    obtain ⟨v', hv', h⟩ := h
    rw [Option.map_eq_some'] at h
    obtain ⟨c', hc', heq⟩ := h
    rw [Prod.mk.injEq] at heq
    obtain ⟨h1, h2⟩ := heq
    subst h1; subst h2
    exact ⟨hc', last, hlast, hv'⟩

/-- Forward direction of the clause loop body: two tokens, a float-parsable
last token and a resolvable field text make the clause recorded. -/
theorem parseClause_eq_some {part last : List Char} {v : PyFloat} {c : String}
    (h2 : 2 ≤ (wordsCh (pyLower part)).length)
    (hlast : (wordsCh (pyLower part)).getLast? = some last)
    (hv : parseFloatCh last = some v)
    (hres : resolveField (joinSpace ((wordsCh (pyLower part)).dropLast)) = some c) :
    parseClause part = some (c, v) := by
  have hne : ¬(part.isEmpty ∨ (wordsCh (pyLower part)).length < 2) := by
    rintro (he | hl)
    · have hnil : part = [] := by simpa using he
      subst hnil
      simp [wordsCh, pyLower, splitByWS] at h2
    · omega
  unfold parseClause
  rw [if_neg hne, hlast]
  simp only [Option.some_bind]
  rw [hv]
  simp only [Option.some_bind]
  rw [hres]
  rfl

/-- A key of the dict after an assignment is the assigned key or an
existing key. -/
theorem fst_mem_dictInsert {m : List (String × PyFloat)} {k : String}
    {v : PyFloat} {p : String × PyFloat} (hp : p ∈ dictInsert m k v) :
    p.1 = k ∨ p.1 ∈ m.map Prod.fst := by
  unfold dictInsert at hp
  split at hp
  · obtain ⟨q, hq, hpq⟩ := List.mem_map.mp hp
    by_cases h : q.1 = k
    · left; rw [← hpq]; simp [h]
    · right; rw [← hpq]; simp only [if_neg h]
      exact List.mem_map_of_mem Prod.fst hq
  · rcases List.mem_append.mp hp with h | h
    · right; exact List.mem_map_of_mem Prod.fst h
    · left
      have : p = (k, v) := by simpa using h
      rw [this]

/-- The key list after a dict assignment: unchanged when the key was
present, the key appended otherwise. -/
theorem keys_dictInsert (m : List (String × PyFloat)) (k : String) (v : PyFloat) :
    (dictInsert m k v).map Prod.fst =
      if m.any (fun p => p.1 = k) then m.map Prod.fst
      else m.map Prod.fst ++ [k] := by
  unfold dictInsert
  split
  · rw [List.map_map]
    apply List.map_congr_left
    intro p _
    by_cases h : p.1 = k <;> simp [h]
  · simp

/-- Dict assignment preserves distinctness of the keys. -/
theorem nodup_keys_dictInsert {m : List (String × PyFloat)} {k : String}
    {v : PyFloat} (h : (m.map Prod.fst).Nodup) :
    ((dictInsert m k v).map Prod.fst).Nodup := by
  rw [keys_dictInsert]
  split
  · exact h
  · rename_i hany
    rw [List.nodup_append]
    refine ⟨h, List.nodup_singleton k, ?_⟩
    intro x hx hk
    have hxk : x = k := by simpa using hk
    subst hxk
    obtain ⟨q, hq, hqk⟩ := List.mem_map.mp hx
    exact hany (List.any_eq_true.mpr ⟨q, hq, by simp [hqk]⟩)

/-- Fold invariant: every key the clause loop accumulates is a canonical
column. -/
theorem foldl_parseStep_keys_canonical (parts : List (List Char))
    (m : List (String × PyFloat))
    (hm : ∀ p ∈ m, (p : String × PyFloat).1 ∈ canonicalCols) :
    ∀ p ∈ parts.foldl parseStep m, (p : String × PyFloat).1 ∈ canonicalCols := by
  induction parts generalizing m with
  | nil => simpa using hm
  | cons part rest ih =>
    intro p hp
    refine ih (parseStep m part) ?_ p hp
    intro q hq
    unfold parseStep at hq
    split at hq
    · rename_i c v hcv
      rcases fst_mem_dictInsert hq with h | h
      · rw [h]
        exact resolveField_mem_canonical (parseClause_inv hcv).1
      · obtain ⟨r, hr, hrq⟩ := List.mem_map.mp h
        rw [← hrq]
        exact hm r hr
    · exact hm q hq

/-- Fold invariant: the clause loop keeps the accumulated keys distinct. -/
theorem foldl_parseStep_keys_nodup (parts : List (List Char))
    (m : List (String × PyFloat)) (hm : (m.map Prod.fst).Nodup) :
    ((parts.foldl parseStep m).map Prod.fst).Nodup := by
  induction parts generalizing m with
  | nil => simpa using hm
  | cons part rest ih =>
    apply ih
    unfold parseStep
    split
    · exact nodup_keys_dictInsert hm
    · exact hm

/-! ### Row and reconciler lemmas -/

/-- Overwriting a metric column never touches the `timestamp` column. -/
theorem setCol_timestamp (r : Row) (c : String) (v : PyFloat) :
    (setCol r c v).timestamp = r.timestamp := by
  unfold setCol
  split_ifs <;> rfl

/-- Applying an update mapping never touches the `timestamp` column. -/
theorem applyUpdates_timestamp (r : Row) (U : List (String × PyFloat)) :
    (applyUpdates r U).timestamp = r.timestamp := by
  induction U generalizing r with
  | nil => rfl
  | cons p U ih =>
    simp only [applyUpdates, List.foldl_cons]
    rw [show (U.foldl (fun acc p => setCol acc p.1 p.2) (setCol r p.1 p.2)) =
      applyUpdates (setCol r p.1 p.2) U from rfl, ih, setCol_timestamp]

/-- Reading a canonical column after overwriting one: hit or miss. -/
theorem getCol_setCol {c : String} (hc : c ∈ canonicalCols) (r : Row)
    (k : String) (v : PyFloat) :
    getCol (setCol r k v) c = if k = c then some v else getCol r c := by
  by_cases h1 : k = "Suenho"
  · subst h1; fin_cases hc <;> rfl
  by_cases h2 : k = "Suenho_profundo"
  · subst h2; fin_cases hc <;> rfl
  by_cases h3 : k = "Peso"
  · subst h3; fin_cases hc <;> rfl
  by_cases h4 : k = "KCal"
  · subst h4; fin_cases hc <;> rfl
  by_cases h5 : k = "KM_Nad"
  · subst h5; fin_cases hc <;> rfl
  by_cases h6 : k = "Cerve"
  · subst h6; fin_cases hc <;> rfl
  by_cases h7 : k = "Copete"
  · subst h7; fin_cases hc <;> rfl
  have hs : setCol r k v = r := by
    unfold setCol
    rw [if_neg h1, if_neg h2, if_neg h3, if_neg h4, if_neg h5, if_neg h6, if_neg h7]
  rw [hs]
  fin_cases hc <;> rw [if_neg (by intro he; subst he; simp_all)]

/-- The fold underlying `lastVal`, started from an arbitrary accumulator. -/
theorem foldl_lastVal (U : List (String × PyFloat)) (c : String)
    (init : Option PyFloat) :
    U.foldl (fun acc p => if p.1 = c then some p.2 else acc) init =
      (match lastVal U c with
       | some w => some w
       | none => init) := by
  induction U generalizing init with
  | nil => simp [lastVal]
  | cons p U ih =>
    simp only [lastVal, List.foldl_cons] at *
    rw [ih (if p.1 = c then some p.2 else init),
        ih (if p.1 = c then some p.2 else none)]
    cases h : U.foldl (fun acc p => if p.1 = c then some p.2 else acc) none with
    | some w => simp [h]
    | none => by_cases hp : p.1 = c <;> simp [h, hp]

/-- Reading a canonical column after applying a whole update mapping:
the mapping's last value for that column, or the row's old value. -/
theorem getCol_applyUpdates {c : String} (hc : c ∈ canonicalCols) (r : Row)
    (U : List (String × PyFloat)) :
    getCol (applyUpdates r U) c =
      (match lastVal U c with
       | some w => some w
       | none => getCol r c) := by
  induction U generalizing r with
  | nil => simp [applyUpdates, lastVal]
  | cons p U ih =>
    simp only [applyUpdates, List.foldl_cons]
    rw [show U.foldl (fun acc p => setCol acc p.1 p.2) (setCol r p.1 p.2) =
        applyUpdates (setCol r p.1 p.2) U from rfl, ih]
    have hl : lastVal (p :: U) c =
        (match lastVal U c with
         | some w => some w
         | none => if p.1 = c then some p.2 else none) := by
      simp only [lastVal, List.foldl_cons]
      exact foldl_lastVal U c (if p.1 = c then some p.2 else none)
    rw [hl]
    cases h : lastVal U c with
    | some w => simp
    | none =>
      simp only []
      rw [getCol_setCol hc]
      by_cases hp : p.1 = c <;> simp [hp]

/-- Applying the same update mapping twice is the same as applying it
once. -/
theorem applyUpdates_idem (r : Row) (U : List (String × PyFloat)) :
    applyUpdates (applyUpdates r U) U = applyUpdates r U := by
  have hcols : ∀ c, c ∈ canonicalCols →
      getCol (applyUpdates (applyUpdates r U) U) c = getCol (applyUpdates r U) c := by
    intro c hc
    cases h : lastVal U c with
    | some w => rw [getCol_applyUpdates hc, getCol_applyUpdates hc, h]
    | none => rw [getCol_applyUpdates hc (applyUpdates r U) U, h]
  refine Row.ext ?_ ?_ ?_ ?_ ?_ ?_ ?_ ?_
  · exact applyUpdates_timestamp (applyUpdates r U) U
  · exact hcols "Suenho" (by decide)
  · exact hcols "Suenho_profundo" (by decide)
  · exact hcols "Peso" (by decide)
  · exact hcols "KCal" (by decide)
  · exact hcols "KM_Nad" (by decide)
  · exact hcols "Cerve" (by decide)
  · exact hcols "Copete" (by decide)

/-- Looking up the conflict day after the `DO UPDATE` branch of the upsert. -/
theorem lookupStore_map_upd (S : Store) (d : Nat) (U : List (String × PyFloat)) :
    lookupStore (S.map (fun p => if p.1 = d then (p.1, applyUpdates p.2 U) else p)) d
      = (lookupStore S d).map (fun r => applyUpdates r U) := by
  induction S with
  | nil => rfl
  | cons p S ih =>
    by_cases hp : p.1 = d
    · unfold lookupStore
      simp only [List.map_cons, if_pos hp]
      rw [List.find?_cons_of_pos _ (by simp [hp]),
        List.find?_cons_of_pos _ (by simp [hp])]
      simp
    · unfold lookupStore
      simp only [List.map_cons, if_neg hp]
      rw [List.find?_cons_of_neg _ (by simp [hp]),
        List.find?_cons_of_neg _ (by simp [hp])]
      exact ih

/-- Appending a fresh row does not disturb lookups that previously missed. -/
theorem lookupStore_append_of_none {S : Store} {d : Nat}
    (h : lookupStore S d = none) (x : Nat × Row) :
    lookupStore (S ++ [x]) d = lookupStore [x] d := by
  unfold lookupStore at *
  have hf : S.find? (fun p => p.1 == d) = none := by
    cases hfind : S.find? (fun p => p.1 == d) with
    | none => rfl
    | some q => rw [hfind] at h; simp at h
  rw [List.find?_append, hf]
  simp

/-- After an upsert the day's stored row is the (old or fresh) row with the
update mapping applied. -/
theorem lookup_reconcile (S : Store) (d t : Nat) (U : List (String × PyFloat)) :
    lookupStore (reconcile S d t U) d =
      some (applyUpdates ((lookupStore S d).getD (emptyRow t)) U) := by
  unfold reconcile
  cases h : lookupStore S d with
  | some r =>
    rw [lookupStore_map_upd, h]
    simp
  | none =>
    rw [lookupStore_append_of_none h]
    unfold lookupStore
    rw [List.find?_cons_of_pos _ (by simp)]
    simp

/-! ### Claim theorems -/

/-- Claim C1: the claim predicts `{Suenho: 7, Suenho_profundo: 2, Peso: 70.5}`
and the confirmation `"Suenho=7, Suenho_profundo=2, Peso=70.5"` for the
input `"sueño 7, sp 2, p 70.5"`; the code instead parses it to
`{Suenho: 2.0, Peso: 70.5}` — the clause `"sp 2"` resolves through the
earlier-declared alias `"s"` to `Suenho` and overwrites the first clause —
and the confirmation it sends is `"Suenho=2.0, Peso=70.5"` (floats render
with a fractional part). -/
theorem c1_end_to_end_actual :
    parse "sueño 7, sp 2, p 70.5" =
      [("Suenho", PyFloat.finite (mkRat 2 1)),
       ("Peso", PyFloat.finite (mkRat 141 2))] ∧
    formatUpdates (parse "sueño 7, sp 2, p 70.5") = "Suenho=2.0, Peso=70.5" ∧
    parse "sueño 7, sp 2, p 70.5" ≠
      [("Suenho", PyFloat.finite (mkRat 7 1)),
       ("Suenho_profundo", PyFloat.finite (mkRat 2 1)),
       ("Peso", PyFloat.finite (mkRat 141 2))] ∧
    formatUpdates (parse "sueño 7, sp 2, p 70.5") ≠
      "Suenho=7, Suenho_profundo=2, Peso=70.5" :=
  ⟨by decide, by decide, by decide, by decide⟩

/-- Claim C2: the vocabulary in fact declares the shorter sleep aliases
`"sueño"` and `"s"` before the longer `"sueño prof"` and `"sp"`, so the
declaration-order startswith scan resolves both `"sueño prof"` and `"sp"`
to `Suenho`, not to `Suenho_profundo`; the two `Suenho_profundo` entries
of the mapping are unreachable, contradicting the docstring example
`"s 1, sp 2, p 70"` which treats `sp` as a distinct field. -/
theorem c2_alias_shadowing :
    resolveField "sp".data = some "Suenho" ∧
    resolveField "sueño prof".data = some "Suenho" ∧
    resolveField "sp".data ≠ some "Suenho_profundo" ∧
    resolveField "sueño prof".data ≠ some "Suenho_profundo" ∧
    ("sp", "Suenho_profundo") ∈ COLUMN_MAPPING ∧
    ("sueño prof", "Suenho_profundo") ∈ COLUMN_MAPPING :=
  ⟨by decide, by decide, by decide, by decide, by decide, by decide⟩

/-- Claim C5: `parse` is total — it is a total Lean function mirroring the
code, whose only fallible step, `float(...)`, is modelled by the `Option`
branch of `parseFloatCh` — and every key of any parse result is one of the
known canonical columns. -/
theorem c5_parse_keys_canonical (text : String) (p : String × PyFloat)
    (hp : p ∈ parse text) : p.1 ∈ canonicalCols := by
  unfold parse at hp
  exact foldl_parseStep_keys_canonical _ [] (by simp) p hp

/-- Witness for C5 at the concrete input `"p 70"`. -/
theorem c5_parse_keys_canonical_witness :
    ("Peso", PyFloat.finite (mkRat 70 1)) ∈ parse "p 70" ∧ "Peso" ∈ canonicalCols :=
  ⟨by decide,
   c5_parse_keys_canonical "p 70" ("Peso", PyFloat.finite (mkRat 70 1)) (by decide)⟩

/-- Claim C6: when parsing yields no updates the pipeline reports the
"no valid fields" outcome (status `"error"`, HTTP 200, the fixed message)
and returns before any storage access: the store is unchanged and the
reconciler branch of the pipeline is never reached. -/
theorem c6_empty_parse_no_write (S : Store) (d t : Nat) (text : String)
    (dbOk notifyOk : Bool) (h : parse text = []) :
    runPipeline S d t text dbOk notifyOk = ⟨.noValidFields, S⟩ ∧
    reportedStatus .noValidFields = "error" ∧
    reportedHttp .noValidFields = 200 ∧
    reportedMessage .noValidFields = some "No valid fields found in message." := by
  refine ⟨?_, rfl, rfl, rfl⟩
  simp [runPipeline, h]

/-- Witness for C6 at the concrete inputs `"hello there"` and `""`. -/
theorem c6_empty_parse_no_write_witness :
    parse "hello there" = [] ∧
    runPipeline [(0, emptyRow 1)] 0 5 "hello there" true true =
      ⟨.noValidFields, [(0, emptyRow 1)]⟩ ∧
    parse "" = [] :=
  ⟨by decide,
   (c6_empty_parse_no_write [(0, emptyRow 1)] 0 5 "hello there" true true
     (by decide)).1,
   by decide⟩

/-- Claim C7: in every parsed mapping each canonical column appears at most
once (the key list has no duplicates), and on `"p 70, p 71"` the later
clause wins: the result is exactly `{Peso: 71.0}`. -/
theorem c7_last_clause_wins :
    (∀ text : String, ((parse text).map Prod.fst).Nodup) ∧
    parse "p 70, p 71" = [("Peso", PyFloat.finite (mkRat 71 1))] := by
  constructor
  · intro text
    unfold parse
    exact foldl_parseStep_keys_nodup _ [] (by simp)
  · decide

/-- Claim C3 (counterexample): with a successful upsert and a failing
notification delivery, the run is NOT reported as a success — the
exception from the Telegram call propagates to the webhook's catch-all,
which reports status `"error"` with HTTP 500 — even though the upsert was
committed (the store holds the new row). -/
theorem c3_notify_failure_not_success :
    (runPipeline [] 0 5 "p 70" true false).result = .notifyFailure ∧
    reportedStatus (runPipeline [] 0 5 "p 70" true false).result ≠ "success" ∧
    reportedHttp (runPipeline [] 0 5 "p 70" true false).result = 500 ∧
    (runPipeline [] 0 5 "p 70" true false).store =
      [(0, { timestamp := 5, Peso := some (PyFloat.finite (mkRat 70 1)) })] :=
  ⟨by decide, by decide, by decide, by decide⟩

/-- Claim C3 (amended): a notification failure after a successful upsert
does not roll back or lose the committed write — the final store is
exactly the reconciled one — but the run is reported as a generic error
(status `"error"`, HTTP 500) by the webhook's catch-all handler, not as a
success. -/
theorem c3_notify_failure_amended (S : Store) (d t : Nat) (text : String)
    (h : parse text ≠ []) :
    (runPipeline S d t text true false).store = reconcile S d t (parse text) ∧
    (runPipeline S d t text true false).result = .notifyFailure ∧
    reportedStatus .notifyFailure = "error" ∧
    reportedHttp .notifyFailure = 500 := by
  have hne : (parse text).isEmpty = false := by
    cases hu : parse text with
    | nil => exact absurd hu h
    | cons a l => rfl
  refine ⟨?_, ?_, rfl, rfl⟩ <;> simp [runPipeline, hne]

/-- Witness for the amended C3 at the concrete input `"p 70"`. -/
theorem c3_notify_failure_amended_witness :
    (runPipeline [(3, emptyRow 9)] 0 5 "p 70" true false).store =
      reconcile [(3, emptyRow 9)] 0 5 (parse "p 70") ∧
    (runPipeline [(3, emptyRow 9)] 0 5 "p 70" true false).result = .notifyFailure ∧
    reportedStatus .notifyFailure = "error" ∧
    reportedHttp .notifyFailure = 500 :=
  c3_notify_failure_amended [(3, emptyRow 9)] 0 5 "p 70" (by decide)

/-- Claim C4 (counterexample): on a day with an existing row the upsert
does NOT overwrite the timestamp: reconciling day 0 with timestamp 9 over
a row stored with timestamp 5 leaves the timestamp at 5 (while the
supplied column is updated), refuting the claim's "(plus the timestamp)"
part. -/
theorem c4_timestamp_not_updated :
    (lookupStore
        (reconcile [(0, emptyRow 5)] 0 9 [("Peso", PyFloat.finite (mkRat 70 1))])
        0).map Row.timestamp = some 5 ∧
    (lookupStore
        (reconcile [(0, emptyRow 5)] 0 9 [("Peso", PyFloat.finite (mkRat 70 1))])
        0).map Row.timestamp ≠ some 9 ∧
    (lookupStore
        (reconcile [(0, emptyRow 5)] 0 9 [("Peso", PyFloat.finite (mkRat 70 1))])
        0).map (fun r => getCol r "Peso") =
      some (some (PyFloat.finite (mkRat 70 1))) :=
  ⟨by decide, by decide, by decide⟩

/-- Claim C4 (amended): merge-not-replace on an existing row — the upsert
overwrites exactly the supplied columns and nothing else: every canonical
column the update mapping does not assign keeps its stored value, every
assigned column takes its (last) supplied value, and the `timestamp`
column also keeps its previous stored value (the `DO UPDATE SET` clause
does not include it). -/
theorem c4_merge_frame (S : Store) (d t : Nat) (U : List (String × PyFloat))
    (r : Row) (h : lookupStore S d = some r) :
    ∃ r', lookupStore (reconcile S d t U) d = some r' ∧
      r'.timestamp = r.timestamp ∧
      (∀ c ∈ canonicalCols, lastVal U c = none → getCol r' c = getCol r c) ∧
      (∀ c ∈ canonicalCols, ∀ v, lastVal U c = some v → getCol r' c = some v) := by
  refine ⟨applyUpdates r U, ?_, applyUpdates_timestamp r U, ?_, ?_⟩
  · rw [lookup_reconcile, h]
    rfl
  · intro c hc hn
    rw [getCol_applyUpdates hc, hn]
  · intro c hc v hv
    rw [getCol_applyUpdates hc, hv]

/-- Witness for the amended C4: the spec's own merge example — day 0 holds
`{Peso: 70.0}` with timestamp 5, then `{KCal: 2000.0}` is reconciled, and
the row ends with both `Peso = 70.0` and `KCal = 2000.0`. -/
theorem c4_merge_frame_witness :
    (∃ r', lookupStore (reconcile
        [(0, { timestamp := 5, Peso := some (PyFloat.finite (mkRat 70 1)) })] 0 6
        [("KCal", PyFloat.finite (mkRat 2000 1))]) 0 = some r' ∧
      r'.timestamp =
        ({ timestamp := 5, Peso := some (PyFloat.finite (mkRat 70 1)) } : Row).timestamp ∧
      (∀ c ∈ canonicalCols,
        lastVal [("KCal", PyFloat.finite (mkRat 2000 1))] c = none →
        getCol r' c =
          getCol { timestamp := 5, Peso := some (PyFloat.finite (mkRat 70 1)) } c) ∧
      (∀ c ∈ canonicalCols, ∀ v,
        lastVal [("KCal", PyFloat.finite (mkRat 2000 1))] c = some v →
        getCol r' c = some v)) ∧
    (lookupStore (reconcile
        [(0, { timestamp := 5, Peso := some (PyFloat.finite (mkRat 70 1)) })] 0 6
        [("KCal", PyFloat.finite (mkRat 2000 1))]) 0).map
      (fun r => (getCol r "Peso", getCol r "KCal")) =
      some (some (PyFloat.finite (mkRat 70 1)), some (PyFloat.finite (mkRat 2000 1))) :=
  ⟨c4_merge_frame _ 0 6 _ _ (by decide), by decide⟩

/-- When the day already has a row, the upsert takes the `DO UPDATE`
branch. -/
theorem reconcile_of_found {S : Store} {d : Nat} (t : Nat)
    {U : List (String × PyFloat)} (h : (lookupStore S d).isSome) :
    reconcile S d t U =
      S.map (fun p => if p.1 = d then (p.1, applyUpdates p.2 U) else p) := by
  unfold reconcile
  cases hl : lookupStore S d with
  | some r => rfl
  | none => rw [hl] at h; simp at h

/-- Claim C8: reconciliation is idempotent for identical input — applying
the same nonempty update mapping for the same day and timestamp twice
leaves exactly the store one application leaves. -/
theorem c8_reconcile_idem (S : Store) (d t : Nat)
    (U : List (String × PyFloat)) (_h : U ≠ []) :
    reconcile (reconcile S d t U) d t U = reconcile S d t U := by
  cases h1 : lookupStore S d with
  | some r =>
    have e1 : reconcile S d t U =
        S.map (fun p => if p.1 = d then (p.1, applyUpdates p.2 U) else p) :=
      reconcile_of_found t (by simp [h1])
    have e2 : lookupStore (reconcile S d t U) d = some (applyUpdates r U) := by
      rw [lookup_reconcile, h1]; rfl
    have e3 : reconcile (reconcile S d t U) d t U =
        (reconcile S d t U).map
          (fun p => if p.1 = d then (p.1, applyUpdates p.2 U) else p) :=
      reconcile_of_found t (by simp [e2])
    rw [e3, e1, List.map_map]
    exact List.map_congr_left
      (fun p _ => by by_cases hp : p.1 = d <;> simp [hp, applyUpdates_idem])
  | none =>
    have e1 : reconcile S d t U = S ++ [(d, applyUpdates (emptyRow t) U)] := by
      unfold reconcile; rw [h1]
    have e2 : lookupStore (reconcile S d t U) d =
        some (applyUpdates (emptyRow t) U) := by
      rw [lookup_reconcile, h1]; rfl
    have e3 : reconcile (reconcile S d t U) d t U =
        (reconcile S d t U).map
          (fun p => if p.1 = d then (p.1, applyUpdates p.2 U) else p) :=
      reconcile_of_found t (by simp [e2])
    have hnot : ∀ p ∈ S, ¬(p.1 = d) := by
      intro p hp he
      have hf : S.find? (fun p => p.1 == d) = none := by
        unfold lookupStore at h1
        cases hfind : S.find? (fun p => p.1 == d) with
        | none => rfl
        | some q => rw [hfind] at h1; simp at h1
      have := List.find?_eq_none.mp hf p hp
      simp [he] at this
    rw [e3, e1, List.map_append]
    have hS : S.map (fun p => if p.1 = d then (p.1, applyUpdates p.2 U) else p)
        = S := by
      rw [show S.map (fun p => if p.1 = d then (p.1, applyUpdates p.2 U) else p)
            = S.map (fun p => p) from
          List.map_congr_left (fun p hp => by simp [hnot p hp])]
      simp
    rw [hS]
    simp [applyUpdates_idem]

/-- Witness for C8 at a concrete store and update mapping (fresh day, then
the same update repeated). -/
theorem c8_reconcile_idem_witness :
    reconcile (reconcile [] 0 5 [("Peso", PyFloat.finite (mkRat 70 1))]) 0 5
        [("Peso", PyFloat.finite (mkRat 70 1))] =
      reconcile [] 0 5 [("Peso", PyFloat.finite (mkRat 70 1))] :=
  c8_reconcile_idem [] 0 5 [("Peso", PyFloat.finite (mkRat 70 1))] (by decide)

/-- Claim C9: a clause whose (lowercased, space-joined) field text merely
starts with some alias, and whose last token parses as a float, is not
discarded: it is recorded, under the canonical column of the first
matching alias of the declaration-order scan (an alias the field text
does start with). -/
theorem c9_loose_alias_resolution (part last : List Char) (v : PyFloat)
    (h2 : 2 ≤ (wordsCh (pyLower part)).length)
    (hlast : (wordsCh (pyLower part)).getLast? = some last)
    (hv : parseFloatCh last = some v)
    (halias : ∃ kv ∈ COLUMN_MAPPING,
      beginsWith (joinSpace ((wordsCh (pyLower part)).dropLast)) kv.1.data = true) :
    ∃ c, parseClause part = some (c, v) ∧
      resolveField (joinSpace ((wordsCh (pyLower part)).dropLast)) = some c ∧
      ∃ kv ∈ COLUMN_MAPPING, kv.2 = c ∧
        beginsWith (joinSpace ((wordsCh (pyLower part)).dropLast)) kv.1.data = true := by
  obtain ⟨kv, hkv, hbw⟩ := halias
  cases hfind : COLUMN_MAPPING.find?
      (fun kv => beginsWith (joinSpace ((wordsCh (pyLower part)).dropLast)) kv.1.data) with
  | none =>
    exact absurd hbw (by simpa using List.find?_eq_none.mp hfind kv hkv)
  | some kv' =>
    have hres : resolveField (joinSpace ((wordsCh (pyLower part)).dropLast))
        = some kv'.2 := by
      unfold resolveField; rw [hfind]; rfl
    exact ⟨kv'.2, parseClause_eq_some h2 hlast hv hres, hres,
      kv', List.mem_of_find?_eq_some hfind, rfl,
      by simpa using List.find?_some hfind⟩

/-- Witness for C9: `"peso bruto 70"` (field text with trailing words) is
recorded under `Peso`, and the unrelated word `"salsa"` starts with the
alias `"s"` so `"salsa 3"` is recorded under `Suenho`. -/
theorem c9_loose_alias_resolution_witness :
    (∃ c, parseClause "peso bruto 70".data = some (c, PyFloat.finite (mkRat 70 1)) ∧
      resolveField (joinSpace ((wordsCh (pyLower "peso bruto 70".data)).dropLast))
        = some c ∧
      ∃ kv ∈ COLUMN_MAPPING, kv.2 = c ∧
        beginsWith (joinSpace ((wordsCh (pyLower "peso bruto 70".data)).dropLast))
          kv.1.data = true) ∧
    parseClause "peso bruto 70".data = some ("Peso", PyFloat.finite (mkRat 70 1)) ∧
    parse "salsa 3" = [("Suenho", PyFloat.finite (mkRat 3 1))] :=
  ⟨c9_loose_alias_resolution "peso bruto 70".data "70".data
      (PyFloat.finite (mkRat 70 1)) (by decide) (by decide) (by decide) (by decide),
   by decide, by decide⟩

/-- Claim C10: no range or plausibility validation of values — whenever
the field resolves and the last token is accepted by float parsing
(including zero, negative numbers, `inf` and `nan`), the parsed value is
recorded in the update mapping unchanged, and reconciling it stores that
exact value in the day's row. -/
theorem c10_value_passthrough (part last : List Char) (v : PyFloat) (c : String)
    (h2 : 2 ≤ (wordsCh (pyLower part)).length)
    (hlast : (wordsCh (pyLower part)).getLast? = some last)
    (hv : parseFloatCh last = some v)
    (hres : resolveField (joinSpace ((wordsCh (pyLower part)).dropLast)) = some c) :
    parseClause part = some (c, v) ∧
    ∀ S d t, getCol ((lookupStore (reconcile S d t [(c, v)]) d).getD (emptyRow t)) c
      = some v := by
  refine ⟨parseClause_eq_some h2 hlast hv hres, ?_⟩
  intro S d t
  have hc : c ∈ canonicalCols := resolveField_mem_canonical hres
  rw [lookup_reconcile]
  simp only [Option.getD_some]
  rw [getCol_applyUpdates hc]
  simp [lastVal]

/-- Witness for C10: `"p inf"` parses to `inf`, which reconciliation
stores verbatim; `"p 0"`, `"p -5"` and `"p nan"` are likewise accepted
unchanged. -/
theorem c10_value_passthrough_witness :
    (parseClause "p inf".data = some ("Peso", PyFloat.inf) ∧
      getCol ((lookupStore (reconcile [] 0 5 [("Peso", PyFloat.inf)]) 0).getD
        (emptyRow 5)) "Peso" = some PyFloat.inf) ∧
    parse "p 0" = [("Peso", PyFloat.finite (mkRat 0 1))] ∧
    parse "p -5" = [("Peso", PyFloat.finite (mkRat (-5) 1))] ∧
    parse "p nan" = [("Peso", PyFloat.nan)] :=
  ⟨⟨(c10_value_passthrough "p inf".data "inf".data PyFloat.inf "Peso"
        (by decide) (by decide) (by decide) (by decide)).1,
    (c10_value_passthrough "p inf".data "inf".data PyFloat.inf "Peso"
        (by decide) (by decide) (by decide) (by decide)).2 [] 0 5⟩,
   by decide, by decide, by decide⟩
